import Mathlib

/-!
Verification of the fixed-point wireframe renderer (uHouse).

The source program (`uHouse_ssd1306_128x64_i2c.ino`) animates a 3D wireframe
scene using 16-bit signed fixed-point arithmetic with a 12-bit fractional part.
This file gives a shallow embedding of its data model and per-frame logic:

* 16-bit signed integers (`int16_t`) are modelled as `Int` together with the
  wrap-to-16-bit conversion `toInt16`, which is applied at every store into an
  `int16_t` variable (two's-complement wrap-around, as GCC on AVR behaves).
* The 32-bit intermediate products in `rotate` and the vertex loop are modelled
  by exact `Int` arithmetic; theorems below show they always fit in 32 bits,
  so no wrap is needed there.
* The C arithmetic right shifts (`>> 12`, `>> 6`, `>> 2`) are floor division,
  which is `Int`'s `/` (Euclidean division coincides with floor division for
  positive divisors).
* The C integer division in the perspective divide truncates toward zero and is
  modelled by `Int.tdiv`.
* The frame loop (`loop()`) and the timer interrupt handler
  (`ISR(TIMER1_COMPA_vect)`) are modelled as state-transition functions on an
  explicit record of the program's mutable globals.  The `uint8_t` FPS counters
  wrap modulo 256 and the `uint16_t` revolution counters modulo 65536.
-/

set_option maxRecDepth 400000
set_option maxHeartbeats 2000000

/-- Wrap an integer to the 16-bit signed range, as storing into `int16_t` does. -/
def toInt16 (n : Int) : Int := (n + 32768) % 65536 - 32768

/-- The `vec2` struct of the source: two `int16_t` fields. -/
structure vec2 where
  x : Int
  y : Int
deriving DecidableEq, Repr

/-- The `vec3` struct of the source: three `int16_t` fields. -/
structure vec3 where
  x : Int
  y : Int
  z : Int
deriving DecidableEq, Repr

/-- The constant `MESH_DEPTH` (`0x2a00`): how far into the screen the mesh sits. -/
def MESH_DEPTH : Int := 0x2a00

/-- The constant `NUM_VERTS`. -/
def NUM_VERTS : Nat := 57

/-- The constant `NUM_INDICES`. -/
def NUM_INDICES : Nat := 136

/-- The `mesh_verts` array: the 57 model-space vertices of the reference scene. -/
def mesh_verts : List vec3 := [
  ⟨0x800, 0x800, 0x800⟩, ⟨-0x800, 0x800, 0x800⟩, ⟨-0x800, -0x800, 0x800⟩, ⟨0x800, -0x800, 0x800⟩,
  ⟨0x800, 0x800, -0x800⟩, ⟨-0x800, 0x800, -0x800⟩, ⟨-0x800, -0x800, -0x800⟩, ⟨0x800, -0x800, -0x800⟩,
  ⟨0x000, -0x1400, 0x000⟩,
  ⟨-0x100, 0x800, -0x800⟩, ⟨-0x600, 0x800, -0x800⟩, ⟨-0x600, 0x200, -0x800⟩, ⟨-0x100, 0x200, -0x800⟩,
  ⟨0x500, -0x200, -0x800⟩, ⟨0x200, -0x200, -0x800⟩, ⟨0x200, -0x500, -0x800⟩, ⟨0x500, -0x500, -0x800⟩,
  ⟨-0x800, 0x500, 0x200⟩, ⟨-0x800, 0x500, 0x500⟩, ⟨-0x800, 0x200, 0x500⟩, ⟨-0x800, 0x200, 0x200⟩,
  ⟨-0x800, 0x800, 0xb00⟩, ⟨0x800, 0x800, 0xb00⟩, ⟨0x800, 0x500, 0xb00⟩, ⟨0x400, 0x500, 0xb00⟩,
  ⟨0x200, 0x200, 0xb00⟩, ⟨-0x600, 0x200, 0xb00⟩, ⟨-0x800, 0x500, 0xb00⟩,
  ⟨-0x800, 0x800, 0x1200⟩, ⟨0x800, 0x800, 0x1200⟩, ⟨0x800, 0x500, 0x1200⟩, ⟨0x400, 0x500, 0x1200⟩,
  ⟨0x200, 0x200, 0x1200⟩, ⟨-0x600, 0x200, 0x1200⟩, ⟨-0x800, 0x500, 0x1200⟩,
  ⟨0x1000, 0x800, 0x000⟩, ⟨0x1000, -0x1400, 0x000⟩, ⟨0x1000, 0x200, 0x000⟩,
  ⟨0x1400, -0x1000, 0x000⟩, ⟨0xc00, -0x1000, 0x000⟩, ⟨0x1000, -0x1000, 0x400⟩, ⟨0x1000, -0x1000, -0x400⟩,
  ⟨-0x800, 0x800, 0x000⟩, ⟨-0x1400, 0x800, 0x000⟩, ⟨-0x1400, 0x200, 0x000⟩, ⟨-0x1200, 0x000, 0x000⟩,
  ⟨-0x1000, 0x200, 0x000⟩, ⟨-0xe00, 0x000, 0x000⟩, ⟨-0xc00, 0x200, 0x000⟩, ⟨-0xa00, 0x000, 0x000⟩,
  ⟨-0x800, 0x200, 0x000⟩, ⟨-0x1000, 0x800, 0x000⟩, ⟨-0xc00, 0x800, 0x000⟩,
  ⟨-0x100, 0x800, -0x900⟩, ⟨-0x600, 0x800, -0x900⟩, ⟨-0x600, 0x800, -0xc00⟩, ⟨-0x100, 0x800, -0xc00⟩]

/-- The `mesh_indices` array: 136 vertex indices, two per drawn edge. -/
def mesh_indices : List Nat := [
  0, 1, 1, 2, 2, 3, 3, 0,
  4, 5, 5, 6, 6, 7, 7, 4,
  0, 4, 1, 5, 2, 6, 3, 7,
  2, 8, 3, 8, 6, 8, 7, 8,
  10, 11, 11, 12, 12, 9,
  13, 14, 14, 15, 15, 16, 16, 13,
  17, 18, 18, 19, 19, 20, 20, 17,
  21, 22, 22, 23, 23, 24, 24, 25, 25, 26, 26, 27, 27, 21,
  28, 29, 29, 30, 30, 31, 31, 32, 32, 33, 33, 34, 34, 28,
  21, 28, 22, 29, 23, 30, 24, 31, 25, 32, 26, 33, 27, 34,
  35, 36, 37, 38, 37, 39, 37, 40, 37, 41,
  42, 43, 43, 44, 44, 45, 45, 46, 46, 47, 47, 48, 48, 49, 49, 50, 50, 42, 46, 51, 48, 52,
  53, 54, 54, 55, 55, 56, 56, 53]

/-- The widened real-part accumulator of `rotate`:
`(int32_t)v1.x*v2.x - (int32_t)v1.y*v2.y`, modelled as exact `Int` arithmetic
(the theorem for C3 locates the one `int16_t` input pair where this exceeds the
32-bit signed range). -/
def realAcc (v1 v2 : vec2) : Int := v1.x * v2.x - v1.y * v2.y

/-- The widened imaginary-part accumulator of `rotate`:
`(int32_t)v1.x*v2.y + (int32_t)v1.y*v2.x`, modelled as exact `Int` arithmetic. -/
def imagAcc (v1 v2 : vec2) : Int := v1.x * v2.y + v1.y * v2.x

/-- The `rotate` function: fixed-point complex multiplication.  The source widens
both operands to `int32_t`, computes the real and imaginary parts, arithmetic
shifts each right by 12 and casts back to `int16_t`. -/
def rotate (v1 v2 : vec2) : vec2 :=
  ⟨toInt16 (realAcc v1 v2 / 4096),
   toInt16 (imagAcc v1 v2 / 4096)⟩

/-- The constant `rot0`: the per-frame spin increment.  The source computes it
once at startup as `(lroundf(4096*cosf(3 deg)), lroundf(4096*sinf(3 deg)))`;
these evaluate to the integer literals below (proved against the real-valued
rounding in the theorem for C8). -/
def rot0 : vec2 := ⟨4090, 214⟩

/-- The constant `loc0`: the per-frame sway increment, from the 1-degree angle
in the same way as `rot0`. -/
def loc0 : vec2 := ⟨4095, 71⟩

/-- The rotated-and-swayed x coordinate of a vertex, from the vertex loop:
`x = ((x0*rotation.x - z0*rotation.y) >> 12) + location.y` stored in `int16_t`. -/
def xRotAt (rot loc : vec2) (v : vec3) : Int :=
  toInt16 ((v.x * rot.x - v.z * rot.y) / 4096 + loc.y)

/-- The rotated-and-swayed z coordinate of a vertex, from the vertex loop:
`z = ((x0*rotation.y + z0*rotation.x) >> 12) + location.x` stored in `int16_t`. -/
def zRotAt (rot loc : vec2) (v : vec3) : Int :=
  toInt16 ((v.x * rot.y + v.z * rot.x) / 4096 + loc.x)

/-- The bobbed y coordinate of a vertex: `y = y0 + (location.x >> 2)` stored in
`int16_t`. -/
def yBobAt (loc : vec2) (v : vec3) : Int :=
  toInt16 (v.y + loc.x / 4)

/-- The perspective denominator: `z_prime = (z + MESH_DEPTH) >> 6`, computed in
16-bit `int` arithmetic and stored in `int16_t`. -/
def zPrimeAt (rot loc : vec2) (v : vec3) : Int :=
  toInt16 (toInt16 (zRotAt rot loc v + MESH_DEPTH) / 64)

/-- One vertex of the transform-and-project pipeline: perspective divide by
`z_prime` (C division truncates toward zero, `Int.tdiv`), then offset by half
the screen dimensions `(64, 32)`; every `int16_t` store wraps. -/
def transformVertex (rot loc : vec2) (v : vec3) : vec2 :=
  ⟨toInt16 (toInt16 (Int.tdiv (xRotAt rot loc v) (zPrimeAt rot loc v)) + 64),
   toInt16 (toInt16 (Int.tdiv (yBobAt loc v) (zPrimeAt rot loc v)) + 32)⟩

/-- The per-frame pipeline pass: the contents of `screen_verts` after the vertex
loop ran with the given accumulator values. -/
def screenPass (rot loc : vec2) : List vec2 :=
  mesh_verts.map (transformVertex rot loc)

/-- One accumulator update from `loop()`: rotate the accumulator by its
increment, increment the `uint16_t` revolution counter, and reset both when the
counter reaches the period. -/
def rotStep (period : Nat) (inc : vec2) (p : vec2 × Nat) : vec2 × Nat :=
  let acc := rotate p.1 inc
  let c := (p.2 + 1) % 65536
  if period ≤ c then (⟨4096, 0⟩, 0) else (acc, c)

/-- Pure iteration of `rotate` from the canonical starting vector `(0x1000, 0)`:
the k-th discrete accumulator state. -/
def iterRot (inc : vec2) : Nat → vec2
  | 0 => ⟨4096, 0⟩
  | n + 1 => rotate (iterRot inc n) inc

/-- The 120 discrete spin states generated from `(0x1000, 0)` by the per-frame
process. -/
def spinStates : List vec2 := (List.range 120).map (iterRot rot0)

/-- The 360 discrete sway states generated from `(0x1000, 0)` by the per-frame
process. -/
def swayStates : List vec2 := (List.range 360).map (iterRot loc0)

/-- The program's mutable globals: the two accumulators with their revolution
counters, the screen buffer, and the two FPS bytes. -/
structure SysState where
  rotation : vec2
  location : vec2
  rotation_counter : Nat
  location_counter : Nat
  screen_verts : List vec2
  fps_counter : Nat
  fps_display : Nat
deriving DecidableEq, Repr

/-- The globals at program start: both accumulators at `(0x1000, 0)`, counters
zero, the screen buffer zero-initialized, FPS bytes zero. -/
def initState : SysState :=
  { rotation := ⟨4096, 0⟩
    location := ⟨4096, 0⟩
    rotation_counter := 0
    location_counter := 0
    screen_verts := List.replicate 57 ⟨0, 0⟩
    fps_counter := 0
    fps_display := 0 }

/-- One iteration of `loop()`: advance and possibly reset both accumulators,
run the pipeline into `screen_verts` with the updated values, draw (a display
effect with no feedback into this state), and increment the `uint8_t` frame
counter. -/
def frameStep (s : SysState) : SysState :=
  let r := rotStep 120 rot0 (s.rotation, s.rotation_counter)
  let l := rotStep 360 loc0 (s.location, s.location_counter)
  { rotation := r.1
    location := l.1
    rotation_counter := r.2
    location_counter := l.2
    screen_verts := screenPass r.1 l.1
    fps_counter := (s.fps_counter + 1) % 256
    fps_display := s.fps_display }

/-- The timer-compare interrupt handler `ISR(TIMER1_COMPA_vect)`: snapshot the
frame counter into `fps_display` and reset the frame counter (the timer
register write and the serial print touch no modelled state). -/
def samplerISR (s : SysState) : SysState :=
  { s with fps_display := s.fps_counter, fps_counter := 0 }

/-- Projection of the globals onto the spin accumulator and its counter. -/
def rotPartR (s : SysState) : vec2 × Nat := (s.rotation, s.rotation_counter)

/-- Projection of the globals onto the sway accumulator and its counter. -/
def rotPartL (s : SysState) : vec2 × Nat := (s.location, s.location_counter)

/-- Projection of the globals onto everything the rendering of future frames
depends on: both accumulators and both counters. -/
def renderPart (s : SysState) : vec2 × vec2 × Nat × Nat :=
  (s.rotation, s.location, s.rotation_counter, s.location_counter)

/-- The sequence of screen buffers produced over a run: each list entry of the
schedule says whether the sampler interrupt fires before that frame-driver
iteration. -/
def screenTrace : List Bool → SysState → List (List vec2)
  | [], _ => []
  | b :: bs, s =>
    let s1 := if b then samplerISR s else s
    let s2 := frameStep s1
    s2.screen_verts :: screenTrace bs s2

/-- Storing a value already in the 16-bit signed range into `int16_t` keeps it. -/
theorem toInt16_eq_self {n : Int} (h1 : -32768 ≤ n) (h2 : n ≤ 32767) : toInt16 n = n := by
  unfold toInt16
  omega

/-- Product of two values in boxes `[-M, M] x [-N, N]` lies in `[-(M*N), M*N]`. -/
theorem mul_bounds {p q M N : Int} (hp1 : -M ≤ p) (hp2 : p ≤ M) (hq1 : -N ≤ q) (hq2 : q ≤ N) :
    -(M * N) ≤ p * q ∧ p * q ≤ M * N := by
  constructor <;>
    nlinarith [mul_nonneg (by linarith : (0:Int) ≤ M - p) (by linarith : (0:Int) ≤ N - q),
      mul_nonneg (by linarith : (0:Int) ≤ M + p) (by linarith : (0:Int) ≤ N + q),
      mul_nonneg (by linarith : (0:Int) ≤ M - p) (by linarith : (0:Int) ≤ N + q),
      mul_nonneg (by linarith : (0:Int) ≤ M + p) (by linarith : (0:Int) ≤ N - q)]

/-- Product of two `int16_t` values lies well inside the 32-bit signed range. -/
theorem int16_mul_bounds {p q : Int} (hp1 : -32768 ≤ p) (hp2 : p ≤ 32767)
    (hq1 : -32768 ≤ q) (hq2 : q ≤ 32767) :
    -1073741823 ≤ p * q ∧ p * q ≤ 1073741824 := by
  constructor <;>
    nlinarith [mul_nonneg (by linarith : (0:Int) ≤ 32767 - p) (by linarith : (0:Int) ≤ 32767 - q),
      mul_nonneg (by linarith : (0:Int) ≤ p + 32768) (by linarith : (0:Int) ≤ q + 32768),
      mul_nonneg (by linarith : (0:Int) ≤ 32767 - p) (by linarith : (0:Int) ≤ q + 32768),
      mul_nonneg (by linarith : (0:Int) ≤ p + 32768) (by linarith : (0:Int) ≤ 32767 - q)]

/-- An integer whose square is at most `M^2` lies in `[-M, M]`. -/
theorem sq_le_bound {x M : Int} (hM : 0 ≤ M) (h : x ^ 2 ≤ M ^ 2) : -M ≤ x ∧ x ≤ M := by
  constructor <;> nlinarith [sq_nonneg (x - M), sq_nonneg (x + M)]

/-- Cauchy-Schwarz style bound for the rounding-error terms of the C4 analysis:
if `a^2 + b^2 ≤ 2 * 4095^2` and `x^2 + y^2 ≤ 4097^2` then `|a*x + b*y|` is at
most `23726566`. -/
theorem inner_bound {a b x y : Int} (hab : a ^ 2 + b ^ 2 ≤ 2 * 4095 ^ 2)
    (hxy : x ^ 2 + y ^ 2 ≤ 4097 ^ 2) :
    -23726566 ≤ a * x + b * y ∧ a * x + b * y ≤ 23726566 := by
  have h1 : (a * x + b * y) ^ 2 ≤ (a ^ 2 + b ^ 2) * (x ^ 2 + y ^ 2) := by
    nlinarith [sq_nonneg (a * y - b * x)]
  have h2 : (a ^ 2 + b ^ 2) * (x ^ 2 + y ^ 2) ≤ 2 * 4095 ^ 2 * 4097 ^ 2 := by
    have hq : (0:Int) ≤ x ^ 2 + y ^ 2 := by positivity
    have ha : (0:Int) ≤ a ^ 2 + b ^ 2 := by positivity
    nlinarith
  exact sq_le_bound (by norm_num) (by nlinarith)

/-- Components of a vector of squared norm at most `4097^2` have magnitude at
most 4097. -/
theorem sq_sum_comp_bounds {x y : Int} (h : x ^ 2 + y ^ 2 ≤ 4097 ^ 2) :
    (-4097 ≤ x ∧ x ≤ 4097) ∧ (-4097 ≤ y ∧ y ≤ 4097) :=
  ⟨sq_le_bound (by norm_num) (by nlinarith [sq_nonneg y]),
   sq_le_bound (by norm_num) (by nlinarith [sq_nonneg x])⟩

/-- Two remainders modulo 4096 have squared-norm sum at most `2 * 4095^2`. -/
theorem emod_sq_sum_bound (A B : Int) :
    (A % 4096) ^ 2 + (B % 4096) ^ 2 ≤ 2 * 4095 ^ 2 := by
  have hA1 : (0:Int) ≤ A % 4096 := Int.emod_nonneg _ (by norm_num)
  have hA2 : A % 4096 + 1 ≤ 4096 :=
    Int.lt_iff_add_one_le.mp (Int.emod_lt_of_pos _ (by norm_num))
  have hB1 : (0:Int) ≤ B % 4096 := Int.emod_nonneg _ (by norm_num)
  have hB2 : B % 4096 + 1 ≤ 4096 :=
    Int.lt_iff_add_one_le.mp (Int.emod_lt_of_pos _ (by norm_num))
  nlinarith [mul_nonneg hA1 hA1, mul_nonneg hB1 hB1,
    mul_nonneg (by linarith : (0:Int) ≤ 4095 - A % 4096) hA1,
    mul_nonneg (by linarith : (0:Int) ≤ 4095 - B % 4096) hB1]

/-- Variant of `emod_sq_sum_bound` with the second remainder negated. -/
theorem emod_sq_sum_bound_neg (A B : Int) :
    (A % 4096) ^ 2 + (-(B % 4096)) ^ 2 ≤ 2 * 4095 ^ 2 := by
  rw [neg_sq]
  exact emod_sq_sum_bound A B

/-- Two floor divisions by 4096 whose dividends differ by the two bounded error
terms differ by at most 3. -/
theorem ediv_diff_bound {m n t e1 e2 : Int} (h1 : m * 4096 = t - e1) (h2 : n * 4096 = t - e2)
    (b1 : -23726566 ≤ e1) (b2 : e1 ≤ 23726566) (b3 : -23726566 ≤ e2) (b4 : e2 ≤ 23726566) :
    -3 ≤ m / 4096 - n / 4096 ∧ m / 4096 - n / 4096 ≤ 3 := by
  omega

/-- Range of the shifted product in `rotate` when both operands have components
of magnitude at most 4097. -/
theorem ediv4096_range {A : Int} (h1 : -33570818 ≤ A) (h2 : A ≤ 33570818) :
    -8197 ≤ A / 4096 ∧ A / 4096 ≤ 8196 := by
  omega

/-- Range of the outer shifted sum in a composed `rotate` under the same
magnitude assumptions. -/
theorem outer_range {m : Int} (h1 : -67166218 ≤ m) (h2 : m ≤ 67166218) :
    -32768 ≤ m / 4096 ∧ m / 4096 ≤ 32767 := by
  omega

/-- C3 counterexample: at the single pair `v = r = (-32768, -32768)` the widened
imaginary accumulator `v.x*r.y + v.y*r.x` equals `2^31` exactly, which does not
fit in a 32-bit signed integer, so it is not computed exactly there. -/
theorem c3_counterexample :
    imagAcc ⟨-32768, -32768⟩ ⟨-32768, -32768⟩ = 2147483648 ∧
    ¬ imagAcc ⟨-32768, -32768⟩ ⟨-32768, -32768⟩ < 2147483648 := by
  constructor
  · decide
  · decide

/-- C3 (amended): for every pair of `vec2` values in the 16-bit container other
than `v = r = (-32768, -32768)`, `rotate` returns the fixed-point complex
product: the widened accumulators `real = v.x*r.x - v.y*r.y` and
`imag = v.x*r.y + v.y*r.x` are exact in a 32-bit signed accumulator (they lie
strictly inside `(-2^31, 2^31)`), and each is arithmetic-shifted right by 12
bits (floor division by 4096) and narrowed back to the 16-bit signed
container. -/
theorem c3_rotate_complex_product (v r : vec2)
    (hv1 : -32768 ≤ v.x) (hv2 : v.x ≤ 32767) (hv3 : -32768 ≤ v.y) (hv4 : v.y ≤ 32767)
    (hr1 : -32768 ≤ r.x) (hr2 : r.x ≤ 32767) (hr3 : -32768 ≤ r.y) (hr4 : r.y ≤ 32767)
    (hne : ¬(v = ⟨-32768, -32768⟩ ∧ r = ⟨-32768, -32768⟩)) :
    rotate v r = ⟨toInt16 (realAcc v r / 4096), toInt16 (imagAcc v r / 4096)⟩ ∧
    -2147483648 < realAcc v r ∧ realAcc v r < 2147483648 ∧
    -2147483648 < imagAcc v r ∧ imagAcc v r < 2147483648 := by
  obtain ⟨vx, vy⟩ := v
  obtain ⟨rx, ry⟩ := r
  simp only [vec2.mk.injEq, not_and, and_imp] at hne
  simp only at hv1 hv2 hv3 hv4 hr1 hr2 hr3 hr4
  have h1 := int16_mul_bounds hv1 hv2 hr1 hr2
  have h2 := int16_mul_bounds hv3 hv4 hr3 hr4
  have h3 := int16_mul_bounds hv1 hv2 hr3 hr4
  have h4 := int16_mul_bounds hv3 hv4 hr1 hr2
  refine ⟨rfl, ?_, ?_, ?_, ?_⟩ <;> simp only [realAcc, imagAcc]
  · linarith [h1.1, h1.2, h2.1, h2.2]
  · linarith [h1.1, h1.2, h2.1, h2.2]
  · linarith [h3.1, h3.2, h4.1, h4.2]
  · -- strict upper bound on the imaginary accumulator: some coordinate is not
    -- the extreme -32768, which caps the corresponding product below 2^30
    by_cases hvx : vx = -32768
    · by_cases hvy : vy = -32768
      · by_cases hrx : rx = -32768
        · have hry : ry ≠ -32768 := hne hvx hvy hrx
          have h5 := (mul_bounds (M := 32768) (N := 32767)
            (by omega : -(32768:Int) ≤ vx) (by omega : vx ≤ 32768)
            (by omega : -(32767:Int) ≤ ry) (by omega : ry ≤ 32767)).2
          linarith [h4.2]
        · have h5 := (mul_bounds (M := 32767) (N := 32768)
            (by omega : -(32767:Int) ≤ rx) (by omega : rx ≤ 32767)
            (by omega : -(32768:Int) ≤ vy) (by omega : vy ≤ 32768)).2
          have h5' : vy * rx ≤ 32767 * 32768 := by linarith [h5, mul_comm rx vy]
          linarith [h3.2]
      · have h5 := (mul_bounds (M := 32767) (N := 32768)
          (by omega : -(32767:Int) ≤ vy) (by omega : vy ≤ 32767)
          (by omega : -(32768:Int) ≤ rx) (by omega : rx ≤ 32768)).2
        linarith [h3.2]
    · have h5 := (mul_bounds (M := 32767) (N := 32768)
        (by omega : -(32767:Int) ≤ vx) (by omega : vx ≤ 32767)
        (by omega : -(32768:Int) ≤ ry) (by omega : ry ≤ 32768)).2
      linarith [h4.2]

/-- Witness for C3 at the identity rotation vector. -/
theorem c3_witness : rotate ⟨4096, 0⟩ ⟨4096, 0⟩ = ⟨4096, 0⟩ :=
  ((c3_rotate_complex_product ⟨4096, 0⟩ ⟨4096, 0⟩ (by norm_num) (by norm_num) (by norm_num)
    (by norm_num) (by norm_num) (by norm_num) (by norm_num) (by norm_num)
    (by simp)).1).trans (by decide)

/-- C7: the edge-index list has 136 entries, every one of them is strictly less
than the vertex count 57, and the screen buffer written by the pipeline has
exactly 57 entries, so every screen-buffer access of the edge-drawing loop is
in bounds. -/
theorem c7_edge_indices_in_bounds :
    mesh_indices.length = NUM_INDICES ∧
    (∀ j ∈ mesh_indices, j < NUM_VERTS) ∧
    mesh_verts.length = NUM_VERTS ∧
    (∀ rot loc : vec2, (screenPass rot loc).length = NUM_VERTS) := by
  refine ⟨by decide, by decide, by decide, ?_⟩
  intro rot loc
  simp [screenPass, mesh_verts, NUM_VERTS]

/-- Witness for C7 at the first edge index. -/
theorem c7_witness : (53 : Nat) ∈ mesh_indices ∧ 53 < NUM_VERTS :=
  ⟨by decide, c7_edge_indices_in_bounds.2.1 53 (by decide)⟩

/-- C1: for every mesh vertex and every accumulator state whose intermediate
values stay in the 16-bit container (which holds for all reachable states, see
C2), one pipeline pass computes `x = ((x0*spin.x - z0*spin.y) >> 12) + sway.y`,
`z = ((x0*spin.y + z0*spin.x) >> 12) + sway.x`, `y = y0 + (sway.x >> 2)`,
`z_prime = (z + MESH_DEPTH) >> 6`, then `screen.x = x / z_prime + 64` and
`screen.y = y / z_prime + 32` with division truncating toward zero, and stores
that pair in the screen-buffer entry of that vertex. -/
theorem c1_pipeline_formula (rot loc : vec2) (i : Nat) (v : vec3) (xv zv yv zp : Int)
    (hvi : mesh_verts[i]? = some v)
    (hxv : xv = (v.x * rot.x - v.z * rot.y) / 4096 + loc.y)
    (hzv : zv = (v.x * rot.y + v.z * rot.x) / 4096 + loc.x)
    (hyv : yv = v.y + loc.x / 4)
    (hzp : zp = (zv + MESH_DEPTH) / 64)
    (hx1 : -32768 ≤ xv) (hx2 : xv ≤ 32767)
    (hz1 : -32768 ≤ zv) (hz2 : zv ≤ 32767)
    (hy1 : -32768 ≤ yv) (hy2 : yv ≤ 32767)
    (hd1 : -32768 ≤ zv + MESH_DEPTH) (hd2 : zv + MESH_DEPTH ≤ 32767)
    (hzpos : 0 < zp)
    (hsx1 : -32768 ≤ Int.tdiv xv zp) (hsx2 : Int.tdiv xv zp + 64 ≤ 32767)
    (hsy1 : -32768 ≤ Int.tdiv yv zp) (hsy2 : Int.tdiv yv zp + 32 ≤ 32767) :
    (screenPass rot loc)[i]? = some ⟨Int.tdiv xv zp + 64, Int.tdiv yv zp + 32⟩ := by
  have hzp16 : -512 ≤ zp ∧ zp ≤ 511 := by
    subst hzp
    omega
  have ex : xRotAt rot loc v = xv := by
    rw [xRotAt, ← hxv]
    exact toInt16_eq_self hx1 hx2
  have ez : zRotAt rot loc v = zv := by
    rw [zRotAt, ← hzv]
    exact toInt16_eq_self hz1 hz2
  have ey : yBobAt loc v = yv := by
    rw [yBobAt, ← hyv]
    exact toInt16_eq_self hy1 hy2
  have ezp : zPrimeAt rot loc v = zp := by
    rw [zPrimeAt, ez, toInt16_eq_self hd1 hd2, ← hzp]
    exact toInt16_eq_self (by omega) (by omega)
  have etv : transformVertex rot loc v = ⟨Int.tdiv xv zp + 64, Int.tdiv yv zp + 32⟩ := by
    rw [transformVertex, ex, ey, ezp,
      toInt16_eq_self hsx1 (by omega), toInt16_eq_self hsy1 (by omega),
      toInt16_eq_self (by omega) (by omega), toInt16_eq_self (by omega) (by omega)]
  rw [screenPass, List.getElem?_map, hvi, Option.map_some', etv]

/-- Witness for C1: the first cube vertex at the initial accumulator values. -/
theorem c1_witness :
    (screenPass ⟨4096, 0⟩ ⟨4096, 0⟩)[0]? = some ⟨71, 43⟩ :=
  c1_pipeline_formula ⟨4096, 0⟩ ⟨4096, 0⟩ 0 ⟨2048, 2048, 2048⟩ 2048 6144 3072 264
    (by decide) (by decide) (by decide) (by decide) (by decide)
    (by decide) (by decide) (by decide) (by decide) (by decide) (by decide)
    (by decide) (by decide) (by decide) (by decide) (by decide) (by decide)
    (by decide)

/-- When the incremented counter is still below the period, `rotStep` advances
the accumulator by one `rotate` and the counter by one. -/
theorem rotStep_eq_advance (period : Nat) (inc : vec2) (p : vec2 × Nat)
    (h : p.2 + 1 < period) (h2 : period ≤ 65535) :
    rotStep period inc p = (rotate p.1 inc, p.2 + 1) := by
  simp only [rotStep]
  have hc : (p.2 + 1) % 65536 = p.2 + 1 := by omega
  rw [hc, if_neg (by omega)]

/-- When the incremented counter reaches the period, `rotStep` resets both the
accumulator and the counter, overriding the just-computed rotated value. -/
theorem rotStep_eq_reset (period : Nat) (inc : vec2) (p : vec2 × Nat)
    (h : p.2 + 1 = period) (h2 : period ≤ 65535) :
    rotStep period inc p = (⟨4096, 0⟩, 0) := by
  simp only [rotStep]
  have hc : (p.2 + 1) % 65536 = p.2 + 1 := by omega
  rw [hc, if_pos (by omega)]

/-- Iterating `rotStep` from the canonical start walks the pure `rotate` orbit
with the counter equal to the frame number modulo the period. -/
theorem rotStep_iterate (period : Nat) (inc : vec2) (hp : 0 < period)
    (hp2 : period ≤ 65535) :
    ∀ n : Nat, (rotStep period inc)^[n] (⟨4096, 0⟩, 0) = (iterRot inc (n % period), n % period) := by
  intro n
  induction n with
  | zero => simp [iterRot]
  | succ n ih =>
    rw [Function.iterate_succ_apply', ih]
    have hlt : n % period < period := Nat.mod_lt _ hp
    have hmod : (n + 1) % period = (n % period + 1) % period := by
      rcases Nat.lt_or_ge 1 period with hgt | hle
      · rw [Nat.add_mod, Nat.mod_eq_of_lt hgt]
      · have hper : period = 1 := by omega
        subst hper
        simp [Nat.mod_one]
    by_cases h : n % period + 1 = period
    · rw [rotStep_eq_reset period inc _ h hp2]
      have h0 : (n + 1) % period = 0 := by
        rw [hmod, h, Nat.mod_self]
      rw [h0]
      rfl
    · rw [rotStep_eq_advance period inc _ (by omega) hp2]
      have h1 : (n + 1) % period = n % period + 1 := by
        rw [hmod, Nat.mod_eq_of_lt (by omega)]
      rw [h1]
      rfl

/-- The spin projection of the frame loop is simulated by `rotStep 120 rot0`. -/
theorem rotPartR_semiconj : Function.Semiconj rotPartR frameStep (rotStep 120 rot0) :=
  fun _ => rfl

/-- The sway projection of the frame loop is simulated by `rotStep 360 loc0`. -/
theorem rotPartL_semiconj : Function.Semiconj rotPartL frameStep (rotStep 360 loc0) :=
  fun _ => rfl

/-- The spin accumulator and counter after n frames. -/
theorem rotPartR_iterate (n : Nat) :
    rotPartR (frameStep^[n] initState) = (iterRot rot0 (n % 120), n % 120) :=
  ((rotPartR_semiconj.iterate_right n) initState).trans
    (rotStep_iterate 120 rot0 (by norm_num) (by norm_num) n)

/-- The sway accumulator and counter after n frames. -/
theorem rotPartL_iterate (n : Nat) :
    rotPartL (frameStep^[n] initState) = (iterRot loc0 (n % 360), n % 360) :=
  ((rotPartL_semiconj.iterate_right n) initState).trans
    (rotStep_iterate 360 loc0 (by norm_num) (by norm_num) n)

/-- Exhaustive bound on the x component over all 360 sway states. -/
theorem sway_x_bounds : ∀ l ∈ swayStates, -3975 ≤ l.x ∧ l.x ≤ 4096 := by
  decide

/-- Exhaustive bound on the rotated depth term over all 120 spin states and all
57 mesh vertices. -/
theorem spin_base_bounds : ∀ r ∈ spinStates, ∀ v ∈ mesh_verts,
    -5078 ≤ (v.x * r.y + v.z * r.x) / 4096 ∧ (v.x * r.y + v.z * r.x) / 4096 ≤ 5077 := by
  decide

/-- C2: every reachable accumulator pair lies in the 120 discrete spin states
and 360 discrete sway states generated from `(0x1000, 0)`, and for every such
pair and every mesh vertex the post-depth-shift denominator
`z_prime = (z + MESH_DEPTH) >> 6` is strictly positive, so the perspective
division never divides by zero or a negative value. -/
theorem c2_denominator_positive :
    (∀ n : Nat, (frameStep^[n] initState).rotation ∈ spinStates ∧
      (frameStep^[n] initState).location ∈ swayStates) ∧
    (∀ r ∈ spinStates, ∀ l ∈ swayStates, ∀ v ∈ mesh_verts, 0 < zPrimeAt r l v) := by
  constructor
  · intro n
    constructor
    · have h : (frameStep^[n] initState).rotation = iterRot rot0 (n % 120) :=
        congrArg Prod.fst (rotPartR_iterate n)
      rw [h, spinStates]
      exact List.mem_map_of_mem _ (List.mem_range.mpr (Nat.mod_lt _ (by norm_num)))
    · have h : (frameStep^[n] initState).location = iterRot loc0 (n % 360) :=
        congrArg Prod.fst (rotPartL_iterate n)
      rw [h, swayStates]
      exact List.mem_map_of_mem _ (List.mem_range.mpr (Nat.mod_lt _ (by norm_num)))
  · intro r hr l hl v hv
    have h1 := sway_x_bounds l hl
    have h2 := spin_base_bounds r hr v hv
    unfold zPrimeAt zRotAt MESH_DEPTH
    generalize hB : v.x * r.y + v.z * r.x = B at h2 ⊢
    unfold toInt16
    omega

/-- Witness for C2 at the initial accumulator pair and the first cube vertex. -/
theorem c2_witness : 0 < zPrimeAt ⟨4096, 0⟩ ⟨4096, 0⟩ ⟨2048, 2048, 2048⟩ :=
  c2_denominator_positive.2 ⟨4096, 0⟩ (by decide) ⟨4096, 0⟩ (by decide)
    ⟨2048, 2048, 2048⟩ (by decide)

/-- C5: each frame first replaces each accumulator by `rotate(accumulator,
increment)` and then increments its revolution counter; exactly when the
counter reaches its period (120 for spin, 360 for sway) the counter is reset to
0 and the accumulator to `(0x1000, 0)`, the reset overriding the just-computed
rotated value; hence after any whole number of periods the accumulator equals
`(0x1000, 0)` exactly. -/
theorem c5_revolution_reset :
    (∀ s : SysState, s.rotation_counter + 1 < 120 →
      (frameStep s).rotation = rotate s.rotation rot0 ∧
      (frameStep s).rotation_counter = s.rotation_counter + 1) ∧
    (∀ s : SysState, s.rotation_counter + 1 = 120 →
      (frameStep s).rotation = ⟨4096, 0⟩ ∧ (frameStep s).rotation_counter = 0) ∧
    (∀ s : SysState, s.location_counter + 1 < 360 →
      (frameStep s).location = rotate s.location loc0 ∧
      (frameStep s).location_counter = s.location_counter + 1) ∧
    (∀ s : SysState, s.location_counter + 1 = 360 →
      (frameStep s).location = ⟨4096, 0⟩ ∧ (frameStep s).location_counter = 0) ∧
    (∀ k : Nat, (frameStep^[120 * k] initState).rotation = ⟨4096, 0⟩ ∧
      (frameStep^[120 * k] initState).rotation_counter = 0) ∧
    (∀ k : Nat, (frameStep^[360 * k] initState).location = ⟨4096, 0⟩ ∧
      (frameStep^[360 * k] initState).location_counter = 0) := by
  refine ⟨?_, ?_, ?_, ?_, ?_, ?_⟩
  · intro s h
    have h' := rotStep_eq_advance 120 rot0 (s.rotation, s.rotation_counter) h (by norm_num)
    exact ⟨congrArg Prod.fst h', congrArg Prod.snd h'⟩
  · intro s h
    have h' := rotStep_eq_reset 120 rot0 (s.rotation, s.rotation_counter) h (by norm_num)
    exact ⟨congrArg Prod.fst h', congrArg Prod.snd h'⟩
  · intro s h
    have h' := rotStep_eq_advance 360 loc0 (s.location, s.location_counter) h (by norm_num)
    exact ⟨congrArg Prod.fst h', congrArg Prod.snd h'⟩
  · intro s h
    have h' := rotStep_eq_reset 360 loc0 (s.location, s.location_counter) h (by norm_num)
    exact ⟨congrArg Prod.fst h', congrArg Prod.snd h'⟩
  · intro k
    have h := rotPartR_iterate (120 * k)
    rw [Nat.mul_mod_right 120 k] at h
    exact ⟨congrArg Prod.fst h, congrArg Prod.snd h⟩
  · intro k
    have h := rotPartL_iterate (360 * k)
    rw [Nat.mul_mod_right 360 k] at h
    exact ⟨congrArg Prod.fst h, congrArg Prod.snd h⟩

/-- Witness for C5: the first frame advances the spin accumulator by one
rotation and its counter to 1. -/
theorem c5_witness :
    (frameStep initState).rotation = rotate ⟨4096, 0⟩ rot0 ∧
    (frameStep initState).rotation_counter = 1 :=
  c5_revolution_reset.1 initState (by norm_num [initState])

/-- The FPS frame counter advances by the `uint8_t` increment each frame. -/
theorem fps_semiconj :
    Function.Semiconj (fun s : SysState => s.fps_counter) frameStep (fun c => (c + 1) % 256) :=
  fun _ => rfl

/-- After k frames the frame counter holds k reduced modulo 256. -/
theorem fps_counter_iterate (k : Nat) (s : SysState) (h : s.fps_counter = 0) :
    (frameStep^[k] s).fps_counter = k % 256 := by
  have hs := (fps_semiconj.iterate_right k) s
  rw [h] at hs
  rw [hs]
  clear hs h
  induction k with
  | zero => simp
  | succ k ih =>
    rw [Function.iterate_succ_apply', ih]
    omega

/-- C6 counterexample: after exactly 256 frame-driver iterations with no
sampler firing, the frame counter is 0, not 256 — the `uint8_t` counter
wrapped. -/
theorem c6_counterexample :
    (frameStep^[256] initState).fps_counter = 0 ∧ (frameStep^[256] initState).fps_counter ≠ 256 := by
  have h := fps_counter_iterate 256 initState rfl
  constructor
  · rw [h]
  · rw [h]
    norm_num

/-- C6 (amended): after exactly k frame-driver iterations with no intervening
sampler firing the frame counter equals k, provided k < 256 (the counter is a
`uint8_t` and wraps otherwise, see the counterexample and C10); and when the
sampler fires, the FPS sample equals the frame counter's value immediately
before the reset and the frame counter is 0 immediately after. -/
theorem c6_frame_counter (k : Nat) (hk : k < 256) :
    (∀ s : SysState, s.fps_counter = 0 → (frameStep^[k] s).fps_counter = k) ∧
    (∀ s : SysState, (samplerISR s).fps_display = s.fps_counter ∧
      (samplerISR s).fps_counter = 0) := by
  constructor
  · intro s h
    rw [fps_counter_iterate k s h, Nat.mod_eq_of_lt hk]
  · intro s
    exact ⟨rfl, rfl⟩

/-- Witness for C6 after 255 frames from the initial state. -/
theorem c6_witness : (frameStep^[255] initState).fps_counter = 255 :=
  (c6_frame_counter 255 (by norm_num)).1 initState rfl

/-- C10: the frame counter and FPS sample are 8-bit values wrapping modulo 256:
after k frame-driver iterations with no sampler firing the counter equals
k mod 256, and the sample produced by a sampler firing after any k frames is at
most 255. -/
theorem c10_eight_bit_wrap :
    (∀ (k : Nat) (s : SysState), s.fps_counter = 0 →
      (frameStep^[k] s).fps_counter = k % 256) ∧
    (∀ (k : Nat) (s : SysState), s.fps_counter = 0 →
      (samplerISR (frameStep^[k] s)).fps_display ≤ 255) := by
  constructor
  · exact fun k s h => fps_counter_iterate k s h
  · intro k s h
    have hc : (samplerISR (frameStep^[k] s)).fps_display = (frameStep^[k] s).fps_counter := rfl
    rw [hc, fps_counter_iterate k s h]
    omega

/-- Witness for C10 after 300 frames: the counter wrapped to 44. -/
theorem c10_witness :
    (frameStep^[300] initState).fps_counter = 44 ∧
    (samplerISR (frameStep^[300] initState)).fps_display ≤ 255 :=
  ⟨c10_eight_bit_wrap.1 300 initState rfl, c10_eight_bit_wrap.2 300 initState rfl⟩

/-- The sampler interrupt leaves everything the rendering depends on intact. -/
theorem renderPart_samplerISR (s : SysState) : renderPart (samplerISR s) = renderPart s :=
  rfl

/-- States agreeing on the render-relevant projection keep agreeing on it after
a frame, and produce the same screen buffer for that frame. -/
theorem frameStep_renderPart {s t : SysState} (h : renderPart s = renderPart t) :
    renderPart (frameStep s) = renderPart (frameStep t) ∧
    (frameStep s).screen_verts = (frameStep t).screen_verts := by
  obtain ⟨h1, h2, h3, h4⟩ : s.rotation = t.rotation ∧ s.location = t.location ∧
      s.rotation_counter = t.rotation_counter ∧ s.location_counter = t.location_counter := by
    simpa [renderPart, Prod.ext_iff] using h
  constructor
  · simp [renderPart, frameStep, h1, h2, h3, h4]
  · simp [frameStep, h1, h2, h3, h4]

/-- Runs that differ only in when the sampler fires produce identical screen
buffer sequences. -/
theorem screenTrace_congr : ∀ (bs : List Bool) (s t : SysState),
    renderPart s = renderPart t →
    screenTrace bs s = screenTrace (bs.map fun _ => false) t := by
  intro bs
  induction bs with
  | nil => intro s t _; rfl
  | cons b bs ih =>
    intro s t h
    have hpre : renderPart (if b then samplerISR s else s) = renderPart t := by
      cases b
      · simpa using h
      · simpa [renderPart_samplerISR] using h
    have hstep := frameStep_renderPart hpre
    simp only [screenTrace, List.map_cons, if_false, Bool.false_eq_true]
    rw [hstep.2]
    exact congrArg _ (ih _ _ hstep.1)

/-- C9: the sampler callback modifies only the FPS state: the rotation and
location accumulators, their revolution counters, and the screen buffer are
unchanged by a firing (the mesh is a program constant), and the sequence of
rendered frames is the same no matter before which frames the sampler fired. -/
theorem c9_sampler_only_fps :
    (∀ s : SysState,
      (samplerISR s).rotation = s.rotation ∧
      (samplerISR s).location = s.location ∧
      (samplerISR s).rotation_counter = s.rotation_counter ∧
      (samplerISR s).location_counter = s.location_counter ∧
      (samplerISR s).screen_verts = s.screen_verts) ∧
    (∀ (sched : List Bool) (s : SysState),
      screenTrace sched s = screenTrace (sched.map fun _ => false) s) := by
  constructor
  · intro s
    exact ⟨rfl, rfl, rfl, rfl, rfl⟩
  · intro sched s
    exact screenTrace_congr sched s s rfl

/-- C4 counterexample: the three vectors are rounded unit vectors (their squared
norms lie within rounding tolerance of `4096^2`, between `4095^2` and `4097^2`),
yet the two association orders of `rotate` differ by 3 in the y component, so
the claimed bound of 1 unit fails. -/
theorem c4_counterexample :
    ((4090:Int) ^ 2 + 214 ^ 2 ≥ 4095 ^ 2 ∧ (4090:Int) ^ 2 + 214 ^ 2 ≤ 4097 ^ 2) ∧
    ((3650:Int) ^ 2 + 1860 ^ 2 ≥ 4095 ^ 2 ∧ (3650:Int) ^ 2 + 1860 ^ 2 ≤ 4097 ^ 2) ∧
    (((-3956):Int) ^ 2 + (-1060) ^ 2 ≥ 4095 ^ 2 ∧ ((-3956):Int) ^ 2 + (-1060) ^ 2 ≤ 4097 ^ 2) ∧
    (rotate (rotate ⟨4090, 214⟩ ⟨3650, 1860⟩) ⟨-3956, -1060⟩).y = -2895 ∧
    (rotate ⟨4090, 214⟩ (rotate ⟨3650, 1860⟩ ⟨-3956, -1060⟩)).y = -2898 ∧
    ¬ |(rotate (rotate ⟨4090, 214⟩ ⟨3650, 1860⟩) ⟨-3956, -1060⟩).y -
        (rotate ⟨4090, 214⟩ (rotate ⟨3650, 1860⟩ ⟨-3956, -1060⟩)).y| ≤ 1 := by
  refine ⟨⟨by norm_num, by norm_num⟩, ⟨by norm_num, by norm_num⟩, ⟨by norm_num, by norm_num⟩,
    by decide, by decide, ?_⟩
  rw [show (rotate (rotate ⟨4090, 214⟩ ⟨3650, 1860⟩) ⟨-3956, -1060⟩).y = -2895 from by decide,
    show (rotate ⟨4090, 214⟩ (rotate ⟨3650, 1860⟩ ⟨-3956, -1060⟩)).y = -2898 from by decide]
  decide

/-- C4 (amended): for all `vec2` values `v`, `a`, `b` of at most unit
fixed-point magnitude (squared norm at most `4097^2`, which covers every
rounded unit vector), each component of `rotate(rotate(v,a),b)` differs from
the corresponding component of `rotate(v,rotate(a,b))` by at most 3 units at
the fixed-point scale; the bound 1 claimed by the specification is too tight
(see the counterexample, which attains 3), the truncating shifts can move each
association order by up to two units against the other plus one floor step. -/
theorem c4_rotate_assoc_bound (v a b : vec2)
    (hv : v.x ^ 2 + v.y ^ 2 ≤ 4097 ^ 2)
    (ha : a.x ^ 2 + a.y ^ 2 ≤ 4097 ^ 2)
    (hb : b.x ^ 2 + b.y ^ 2 ≤ 4097 ^ 2) :
    |(rotate (rotate v a) b).x - (rotate v (rotate a b)).x| ≤ 3 ∧
    |(rotate (rotate v a) b).y - (rotate v (rotate a b)).y| ≤ 3 := by
  obtain ⟨vx, vy⟩ := v
  obtain ⟨ax, ay⟩ := a
  obtain ⟨bx, byy⟩ := b
  simp only at hv ha hb
  obtain ⟨hvx, hvy⟩ := sq_sum_comp_bounds hv
  obtain ⟨hax, hay⟩ := sq_sum_comp_bounds ha
  obtain ⟨hbx, hby⟩ := sq_sum_comp_bounds hb
  have pvxax := mul_bounds (M := 4097) (N := 4097) hvx.1 hvx.2 hax.1 hax.2
  have pvyay := mul_bounds (M := 4097) (N := 4097) hvy.1 hvy.2 hay.1 hay.2
  have pvxay := mul_bounds (M := 4097) (N := 4097) hvx.1 hvx.2 hay.1 hay.2
  have pvyax := mul_bounds (M := 4097) (N := 4097) hvy.1 hvy.2 hax.1 hax.2
  have paxbx := mul_bounds (M := 4097) (N := 4097) hax.1 hax.2 hbx.1 hbx.2
  have payby := mul_bounds (M := 4097) (N := 4097) hay.1 hay.2 hby.1 hby.2
  have paxby := mul_bounds (M := 4097) (N := 4097) hax.1 hax.2 hby.1 hby.2
  have paybx := mul_bounds (M := 4097) (N := 4097) hay.1 hay.2 hbx.1 hbx.2
  have hXr := ediv4096_range (A := vx * ax - vy * ay)
    (by linarith [pvxax.1, pvyay.2]) (by linarith [pvxax.2, pvyay.1])
  have hYr := ediv4096_range (A := vx * ay + vy * ax)
    (by linarith [pvxay.1, pvyax.1]) (by linarith [pvxay.2, pvyax.2])
  have hPr := ediv4096_range (A := ax * bx - ay * byy)
    (by linarith [paxbx.1, payby.2]) (by linarith [paxbx.2, payby.1])
  have hQr := ediv4096_range (A := ax * byy + ay * bx)
    (by linarith [paxby.1, paybx.1]) (by linarith [paxby.2, paybx.2])
  simp only [rotate, realAcc, imagAcc]
  rw [toInt16_eq_self (n := (vx * ax - vy * ay) / 4096)
      (by linarith [hXr.1]) (by linarith [hXr.2]),
    toInt16_eq_self (n := (vx * ay + vy * ax) / 4096)
      (by linarith [hYr.1]) (by linarith [hYr.2]),
    toInt16_eq_self (n := (ax * bx - ay * byy) / 4096)
      (by linarith [hPr.1]) (by linarith [hPr.2]),
    toInt16_eq_self (n := (ax * byy + ay * bx) / 4096)
      (by linarith [hQr.1]) (by linarith [hQr.2])]
  have pXbx := mul_bounds (M := 8197) (N := 4097)
    (by linarith [hXr.1] : -(8197:Int) ≤ (vx * ax - vy * ay) / 4096)
    (by linarith [hXr.2] : (vx * ax - vy * ay) / 4096 ≤ 8197) hbx.1 hbx.2
  have pXby := mul_bounds (M := 8197) (N := 4097)
    (by linarith [hXr.1] : -(8197:Int) ≤ (vx * ax - vy * ay) / 4096)
    (by linarith [hXr.2] : (vx * ax - vy * ay) / 4096 ≤ 8197) hby.1 hby.2
  have pYby := mul_bounds (M := 8197) (N := 4097)
    (by linarith [hYr.1] : -(8197:Int) ≤ (vx * ay + vy * ax) / 4096)
    (by linarith [hYr.2] : (vx * ay + vy * ax) / 4096 ≤ 8197) hby.1 hby.2
  have pYbx := mul_bounds (M := 8197) (N := 4097)
    (by linarith [hYr.1] : -(8197:Int) ≤ (vx * ay + vy * ax) / 4096)
    (by linarith [hYr.2] : (vx * ay + vy * ax) / 4096 ≤ 8197) hbx.1 hbx.2
  have pvxP := mul_bounds (M := 4097) (N := 8197) hvx.1 hvx.2
    (by linarith [hPr.1] : -(8197:Int) ≤ (ax * bx - ay * byy) / 4096)
    (by linarith [hPr.2] : (ax * bx - ay * byy) / 4096 ≤ 8197)
  have pvyQ := mul_bounds (M := 4097) (N := 8197) hvy.1 hvy.2
    (by linarith [hQr.1] : -(8197:Int) ≤ (ax * byy + ay * bx) / 4096)
    (by linarith [hQr.2] : (ax * byy + ay * bx) / 4096 ≤ 8197)
  have pvxQ := mul_bounds (M := 4097) (N := 8197) hvx.1 hvx.2
    (by linarith [hQr.1] : -(8197:Int) ≤ (ax * byy + ay * bx) / 4096)
    (by linarith [hQr.2] : (ax * byy + ay * bx) / 4096 ≤ 8197)
  have pvyP := mul_bounds (M := 4097) (N := 8197) hvy.1 hvy.2
    (by linarith [hPr.1] : -(8197:Int) ≤ (ax * bx - ay * byy) / 4096)
    (by linarith [hPr.2] : (ax * bx - ay * byy) / 4096 ≤ 8197)
  rw [toInt16_eq_self (n := ((vx * ax - vy * ay) / 4096 * bx - (vx * ay + vy * ax) / 4096 * byy) / 4096)
        (outer_range (by linarith [pXbx.1, pYby.2]) (by linarith [pXbx.2, pYby.1])).1
        (outer_range (by linarith [pXbx.1, pYby.2]) (by linarith [pXbx.2, pYby.1])).2,
    toInt16_eq_self (n := ((vx * ax - vy * ay) / 4096 * byy + (vx * ay + vy * ax) / 4096 * bx) / 4096)
        (outer_range (by linarith [pXby.1, pYbx.1]) (by linarith [pXby.2, pYbx.2])).1
        (outer_range (by linarith [pXby.1, pYbx.1]) (by linarith [pXby.2, pYbx.2])).2,
    toInt16_eq_self (n := (vx * ((ax * bx - ay * byy) / 4096) - vy * ((ax * byy + ay * bx) / 4096)) / 4096)
        (outer_range (by linarith [pvxP.1, pvyQ.2]) (by linarith [pvxP.2, pvyQ.1])).1
        (outer_range (by linarith [pvxP.1, pvyQ.2]) (by linarith [pvxP.2, pvyQ.1])).2,
    toInt16_eq_self (n := (vx * ((ax * byy + ay * bx) / 4096) + vy * ((ax * bx - ay * byy) / 4096)) / 4096)
        (outer_range (by linarith [pvxQ.1, pvyP.1]) (by linarith [pvxQ.2, pvyP.2])).1
        (outer_range (by linarith [pvxQ.1, pvyP.1]) (by linarith [pvxQ.2, pvyP.2])).2]
  have hdivA := Int.ediv_add_emod (vx * ax - vy * ay) 4096
  have hdivB := Int.ediv_add_emod (vx * ay + vy * ax) 4096
  have hdivC := Int.ediv_add_emod (ax * bx - ay * byy) 4096
  have hdivD := Int.ediv_add_emod (ax * byy + ay * bx) 4096
  have hsqAB := emod_sq_sum_bound (vx * ax - vy * ay) (vx * ay + vy * ax)
  have hb2 : byy ^ 2 + bx ^ 2 ≤ 4097 ^ 2 := by linarith
  constructor
  · rw [abs_le]
    have hE1 := inner_bound (a := (vx * ax - vy * ay) % 4096) (b := -((vx * ay + vy * ax) % 4096))
      (x := bx) (y := byy) (emod_sq_sum_bound_neg (vx * ax - vy * ay) (vx * ay + vy * ax)) hb
    have hE2 := inner_bound (a := (ax * bx - ay * byy) % 4096) (b := -((ax * byy + ay * bx) % 4096))
      (x := vx) (y := vy) (emod_sq_sum_bound_neg (ax * bx - ay * byy) (ax * byy + ay * bx)) hv
    have hmx : ((vx * ax - vy * ay) / 4096 * bx - (vx * ay + vy * ax) / 4096 * byy) * 4096 =
        ((vx * ax - vy * ay) * bx - (vx * ay + vy * ax) * byy) -
          ((vx * ax - vy * ay) % 4096 * bx + -((vx * ay + vy * ax) % 4096) * byy) := by
      linear_combination bx * hdivA - byy * hdivB
    have hnx : (vx * ((ax * bx - ay * byy) / 4096) - vy * ((ax * byy + ay * bx) / 4096)) * 4096 =
        ((vx * ax - vy * ay) * bx - (vx * ay + vy * ax) * byy) -
          ((ax * bx - ay * byy) % 4096 * vx + -((ax * byy + ay * bx) % 4096) * vy) := by
      linear_combination vx * hdivC - vy * hdivD
    exact ediv_diff_bound hmx hnx hE1.1 hE1.2 hE2.1 hE2.2
  · rw [abs_le]
    have hE1 := inner_bound (a := (vx * ax - vy * ay) % 4096) (b := (vx * ay + vy * ax) % 4096)
      (x := byy) (y := bx) hsqAB hb2
    have hE2 := inner_bound (a := (ax * byy + ay * bx) % 4096) (b := (ax * bx - ay * byy) % 4096)
      (x := vx) (y := vy) (emod_sq_sum_bound (ax * byy + ay * bx) (ax * bx - ay * byy)) hv
    have hmy : ((vx * ax - vy * ay) / 4096 * byy + (vx * ay + vy * ax) / 4096 * bx) * 4096 =
        ((vx * ax - vy * ay) * byy + (vx * ay + vy * ax) * bx) -
          ((vx * ax - vy * ay) % 4096 * byy + (vx * ay + vy * ax) % 4096 * bx) := by
      linear_combination byy * hdivA + bx * hdivB
    have hny : (vx * ((ax * byy + ay * bx) / 4096) + vy * ((ax * bx - ay * byy) / 4096)) * 4096 =
        ((vx * ax - vy * ay) * byy + (vx * ay + vy * ax) * bx) -
          ((ax * byy + ay * bx) % 4096 * vx + (ax * bx - ay * byy) % 4096 * vy) := by
      linear_combination vx * hdivD + vy * hdivC
    exact ediv_diff_bound hmy hny hE1.1 hE1.2 hE2.1 hE2.2

/-- Witness for C4 at three identity rotation vectors. -/
theorem c4_witness :
    |(rotate (rotate ⟨4096, 0⟩ ⟨4096, 0⟩) ⟨4096, 0⟩).x -
      (rotate ⟨4096, 0⟩ (rotate ⟨4096, 0⟩ ⟨4096, 0⟩)).x| ≤ 3 ∧
    |(rotate (rotate ⟨4096, 0⟩ ⟨4096, 0⟩) ⟨4096, 0⟩).y -
      (rotate ⟨4096, 0⟩ (rotate ⟨4096, 0⟩ ⟨4096, 0⟩)).y| ≤ 3 :=
  c4_rotate_assoc_bound ⟨4096, 0⟩ ⟨4096, 0⟩ ⟨4096, 0⟩ (by norm_num) (by norm_num) (by norm_num)

/-- The rounded fixed-point cosine of 3 degrees is 4090. -/
theorem round_cos_three : round ((4096 : ℝ) * Real.cos (3 * Real.pi / 180)) = 4090 := by
  have hpi1 : (3.141592 : ℝ) < Real.pi := Real.pi_gt_d6
  have hpi2 : Real.pi < 3.141593 := Real.pi_lt_d6
  have hx0 : (0 : ℝ) ≤ 3 * Real.pi / 180 := by linarith
  have hx1 : (0.0523598 : ℝ) ≤ 3 * Real.pi / 180 := by linarith
  have hx2 : (3 * Real.pi / 180 : ℝ) ≤ 0.0523599 := by linarith
  have habs : |(3 * Real.pi / 180 : ℝ)| = 3 * Real.pi / 180 := abs_of_nonneg hx0
  have hcb := Real.cos_bound (x := 3 * Real.pi / 180) (by rw [habs]; linarith)
  rw [habs, abs_le] at hcb
  have hx2u : ((3 * Real.pi / 180 : ℝ)) ^ 2 ≤ 0.0523599 ^ 2 := pow_le_pow_left₀ hx0 hx2 2
  have hx2l : ((0.0523598 : ℝ)) ^ 2 ≤ (3 * Real.pi / 180) ^ 2 := pow_le_pow_left₀ (by norm_num) hx1 2
  have hx4u : ((3 * Real.pi / 180 : ℝ)) ^ 4 ≤ 0.0523599 ^ 4 := pow_le_pow_left₀ hx0 hx2 4
  have hx4l : (0 : ℝ) ≤ (3 * Real.pi / 180) ^ 4 := by positivity
  rw [round_eq, Int.floor_eq_iff]
  constructor
  · push_cast
    nlinarith [hcb.1, hcb.2, hx2u, hx2l, hx4u, hx4l]
  · push_cast
    nlinarith [hcb.1, hcb.2, hx2u, hx2l, hx4u, hx4l]

/-- The rounded fixed-point sine of 3 degrees is 214. -/
theorem round_sin_three : round ((4096 : ℝ) * Real.sin (3 * Real.pi / 180)) = 214 := by
  have hpi1 : (3.141592 : ℝ) < Real.pi := Real.pi_gt_d6
  have hpi2 : Real.pi < 3.141593 := Real.pi_lt_d6
  have hx0 : (0 : ℝ) ≤ 3 * Real.pi / 180 := by linarith
  have hx1 : (0.0523598 : ℝ) ≤ 3 * Real.pi / 180 := by linarith
  have hx2 : (3 * Real.pi / 180 : ℝ) ≤ 0.0523599 := by linarith
  have habs : |(3 * Real.pi / 180 : ℝ)| = 3 * Real.pi / 180 := abs_of_nonneg hx0
  have hsb := Real.sin_bound (x := 3 * Real.pi / 180) (by rw [habs]; linarith)
  rw [habs, abs_le] at hsb
  have hx3u : ((3 * Real.pi / 180 : ℝ)) ^ 3 ≤ 0.0523599 ^ 3 := pow_le_pow_left₀ hx0 hx2 3
  have hx3l : ((0.0523598 : ℝ)) ^ 3 ≤ (3 * Real.pi / 180) ^ 3 := pow_le_pow_left₀ (by norm_num) hx1 3
  have hx4u : ((3 * Real.pi / 180 : ℝ)) ^ 4 ≤ 0.0523599 ^ 4 := pow_le_pow_left₀ hx0 hx2 4
  have hx4l : (0 : ℝ) ≤ (3 * Real.pi / 180) ^ 4 := by positivity
  rw [round_eq, Int.floor_eq_iff]
  constructor
  · push_cast
    nlinarith [hsb.1, hsb.2, hx3u, hx3l, hx4u, hx4l]
  · push_cast
    nlinarith [hsb.1, hsb.2, hx3u, hx3l, hx4u, hx4l]

/-- The rounded fixed-point cosine of 1 degree is 4095. -/
theorem round_cos_one : round ((4096 : ℝ) * Real.cos (1 * Real.pi / 180)) = 4095 := by
  have hpi1 : (3.141592 : ℝ) < Real.pi := Real.pi_gt_d6
  have hpi2 : Real.pi < 3.141593 := Real.pi_lt_d6
  have hx0 : (0 : ℝ) ≤ 1 * Real.pi / 180 := by linarith
  have hx1 : (0.0174532 : ℝ) ≤ 1 * Real.pi / 180 := by linarith
  have hx2 : (1 * Real.pi / 180 : ℝ) ≤ 0.0174533 := by linarith
  have habs : |(1 * Real.pi / 180 : ℝ)| = 1 * Real.pi / 180 := abs_of_nonneg hx0
  have hcb := Real.cos_bound (x := 1 * Real.pi / 180) (by rw [habs]; linarith)
  rw [habs, abs_le] at hcb
  have hx2u : ((1 * Real.pi / 180 : ℝ)) ^ 2 ≤ 0.0174533 ^ 2 := pow_le_pow_left₀ hx0 hx2 2
  have hx2l : ((0.0174532 : ℝ)) ^ 2 ≤ (1 * Real.pi / 180) ^ 2 := pow_le_pow_left₀ (by norm_num) hx1 2
  have hx4u : ((1 * Real.pi / 180 : ℝ)) ^ 4 ≤ 0.0174533 ^ 4 := pow_le_pow_left₀ hx0 hx2 4
  have hx4l : (0 : ℝ) ≤ (1 * Real.pi / 180) ^ 4 := by positivity
  rw [round_eq, Int.floor_eq_iff]
  constructor
  · push_cast
    nlinarith [hcb.1, hcb.2, hx2u, hx2l, hx4u, hx4l]
  · push_cast
    nlinarith [hcb.1, hcb.2, hx2u, hx2l, hx4u, hx4l]

/-- The rounded fixed-point sine of 1 degree is 71. -/
theorem round_sin_one : round ((4096 : ℝ) * Real.sin (1 * Real.pi / 180)) = 71 := by
  have hpi1 : (3.141592 : ℝ) < Real.pi := Real.pi_gt_d6
  have hpi2 : Real.pi < 3.141593 := Real.pi_lt_d6
  have hx0 : (0 : ℝ) ≤ 1 * Real.pi / 180 := by linarith
  have hx1 : (0.0174532 : ℝ) ≤ 1 * Real.pi / 180 := by linarith
  have hx2 : (1 * Real.pi / 180 : ℝ) ≤ 0.0174533 := by linarith
  have habs : |(1 * Real.pi / 180 : ℝ)| = 1 * Real.pi / 180 := abs_of_nonneg hx0
  have hsb := Real.sin_bound (x := 1 * Real.pi / 180) (by rw [habs]; linarith)
  rw [habs, abs_le] at hsb
  have hx3u : ((1 * Real.pi / 180 : ℝ)) ^ 3 ≤ 0.0174533 ^ 3 := pow_le_pow_left₀ hx0 hx2 3
  have hx3l : ((0.0174532 : ℝ)) ^ 3 ≤ (1 * Real.pi / 180) ^ 3 := pow_le_pow_left₀ (by norm_num) hx1 3
  have hx4u : ((1 * Real.pi / 180 : ℝ)) ^ 4 ≤ 0.0174533 ^ 4 := pow_le_pow_left₀ hx0 hx2 4
  have hx4l : (0 : ℝ) ≤ (1 * Real.pi / 180) ^ 4 := by positivity
  rw [round_eq, Int.floor_eq_iff]
  constructor
  · push_cast
    nlinarith [hsb.1, hsb.2, hx3u, hx3l, hx4u, hx4l]
  · push_cast
    nlinarith [hsb.1, hsb.2, hx3u, hx3l, hx4u, hx4l]

/-- C8: the two per-frame increment vectors equal the full-precision rounding
of the real trigonometric derivation at 3 degrees (spin) and 1 degree (sway):
`rot0 = (round(4096*cos(3 deg)), round(4096*sin(3 deg))) = (4090, 214)` and
`loc0 = (round(4096*cos(1 deg)), round(4096*sin(1 deg))) = (4095, 71)`; they
are fixed integer constants, and the per-frame path of the embedding
(`frameStep`) is built from integer arithmetic only. -/
theorem c8_increment_constants :
    rot0 = ⟨round ((4096 : ℝ) * Real.cos (3 * Real.pi / 180)),
            round ((4096 : ℝ) * Real.sin (3 * Real.pi / 180))⟩ ∧
    loc0 = ⟨round ((4096 : ℝ) * Real.cos (1 * Real.pi / 180)),
            round ((4096 : ℝ) * Real.sin (1 * Real.pi / 180))⟩ := by
  rw [round_cos_three, round_sin_three, round_cos_one, round_sin_one]
  exact ⟨rfl, rfl⟩
